import Mathlib

/-!
Shallow embedding of the cfg-kit configuration-resolution engine
(`packages/config-as-code`, plugin-capable builder variant).

JavaScript objects are modelled as association lists (`List (String × α)`,
first match wins on lookup, insertion order preserved); object spread
`{...a, ...b}` is `mergeRecords a b`; `process.env.CONFIG_AS_CODE_BUILD_MODE`
is an explicit `Option String` parameter threaded into `defineConfig`;
thrown exceptions / rejected promises are `Except String`; async is
collapsed (single logical thread, sequential awaits).  The opaque zod
validator library is modelled by `Rule := Value → Except String Value`,
and `z.object(shape).parse` by `validateGroup`, which collects the
per-key issues of every rule in shape order, as zod does.
-/

namespace CfgKit

/-- Runtime values flowing through resolution (strings from the process
environment, plus the other primitive shapes fields resolve to). -/
inductive Value where
  | str (s : String)
  | num (n : Int)
  | boolean (b : Bool)
  | undef
  deriving DecidableEq, Repr

/-- A validation rule: given a raw value, return the normalized value or a
failure message (the message of the zod issue). -/
abbrev Rule := Value → Except String Value

/-- The validated environment mapping handed to field resolvers. -/
abbrev EnvMap := List (String × Value)

/-- A field's value source: a static value, or a resolver receiving
`{ stableId, env }` (which may throw, i.e. return an error). -/
inductive FieldValue where
  | static (v : Value)
  | resolver (g : String → EnvMap → Except String Value)

/-- `ConfigField`: `{ validation, value }`. -/
structure ConfigField where
  validation : Rule
  value : FieldValue

/-- The `env` block: schemas plus prefix and raw runtime environment.
`runtimeEnv` values are `string | undefined`; an absent key and a key
present with value `undefined` are indistinguishable under JS lookup
(see `envLookup`). -/
structure EnvSchema where
  server : List (String × Rule)
  client : List (String × Rule)
  cliPfx : String
  runtimeEnv : List (String × Option String)
  emptyStringAsUndefined : Option Bool

/-- Result of `processEnvConfig`: validated server/client environment maps. -/
structure EnvResult where
  server : List (String × Value)
  client : List (String × Value)

/-- The full config object passed to the core `defineConfig`. -/
structure Config where
  server : List (String × ConfigField)
  client : List (String × ConfigField)
  env : Option EnvSchema

/-- What the core `defineConfig` returns: in build mode the raw config
(`return config as any`), otherwise the resolved server/client maps. -/
inductive DefineResult where
  | raw (c : Config)
  | resolved (server client : List (String × Value))

/-- A plugin fragment as produced by `Plugin.build()`; the optional `env`
block is modelled with `[]` for absence (spreading `undefined` is a no-op). -/
structure PluginConfig where
  server : List (String × ConfigField)
  client : List (String × ConfigField)
  envServer : List (String × Rule)
  envClient : List (String × Rule)

/-- The builder's stored env configuration (from `buildEnv`). -/
structure EnvCfg where
  cliPfx : String
  runtimeEnv : List (String × Option String)
  emptyStringAsUndefined : Option Bool

/-- The root field declarations passed to `ConfigBuilder.defineConfig`
(direct-object pattern; the callback pattern produces the same object). -/
structure RootConfig where
  server : List (String × ConfigField)
  client : List (String × ConfigField)

/-- `ConfigBuilder` private state.  A plugin is modelled by the outcome of
its `build()` call (`Except.error` = build threw/rejected). -/
structure ConfigBuilder where
  serverEnvSchemas : List (String × Rule)
  clientEnvSchemas : List (String × Rule)
  envConfig : Option EnvCfg
  plugins : List (Except String PluginConfig)

/-- JS property lookup on an association list: first match wins. -/
def lookupRecord {α : Type} : List (String × α) → String → Option α
  | [], _ => none
  | (k, v) :: rest, key => if k = key then some v else lookupRecord rest key

/-- `x` if present, else `y` (JS `??`-style choice used to state lookups
over merged objects). -/
def firstSome {α : Type} (x y : Option α) : Option α :=
  match x with
  | some v => some v
  | none => y

/-- JS object spread `{...a, ...b}`: keys of `a` keep their position but
take `b`'s value on collision; keys only in `b` are appended in order. -/
def mergeRecords {α : Type} (a b : List (String × α)) : List (String × α) :=
  a.map (fun p => (p.1, (lookupRecord b p.1).getD p.2)) ++
    b.filter (fun p => (lookupRecord a p.1).isNone)

/-- Does the pattern match at the head of the text? -/
def leadMatch : List Char → List Char → Bool
  | [], _ => true
  | _ :: _, [] => false
  | a :: as, b :: bs => a == b && leadMatch as bs

/-- Does the pattern occur anywhere in the text? -/
def occursIn (pat : List Char) : List Char → Bool
  | [] => leadMatch pat []
  | b :: bs => leadMatch pat (b :: bs) || occursIn pat bs

/-- Substring test on strings (used to state what an error message does or
does not mention). -/
def strHasSub (pat text : String) : Bool :=
  occursIn pat.toList text.toList

/-- JS `key.startsWith(pat)` (argument order: pattern first). -/
def strStarts (pat s : String) : Bool :=
  leadMatch pat.toList s.toList

/-- `string | undefined` lifted to a `Value` for validation. -/
def toValue : Option String → Value
  | none => Value.undef
  | some s => Value.str s

/-- JS lookup `obj[key]` on a `Record<string, string | undefined>`: an
absent key and a present-but-undefined key both yield `undefined`. -/
def envLookup (re : List (String × Option String)) (k : String) : Option String :=
  match lookupRecord re k with
  | some v => v
  | none => none

/-- `processEnvValue`: with `emptyStringAsUndefined`, `""` becomes
`undefined`. -/
def processEnvValue (esu : Bool) (v : Option String) : Option String :=
  match v with
  | some s => if esu && s = "" then none else some s
  | none => none

/-- `processedRuntimeEnv`: map `processEnvValue` over every entry. -/
def processedRuntimeEnv (esu : Bool) (re : List (String × Option String)) :
    List (String × Option String) :=
  re.map (fun p => (p.1, processEnvValue esu p.2))

/-- One `"<path>: <message>"` line per zod issue, newline-joined. -/
def errLines (errs : List (String × String)) : String :=
  String.intercalate "\n" (errs.map (fun p => p.1 ++ ": " ++ p.2))

/-- The client-prefix precondition error message. -/
def cliPfxErrMsg (k p : String) : String :=
  "Client environment variable \"" ++ k ++
    "\" does not start with the required prefix \"" ++ p ++ "\""

/-- `z.object(rules).parse(values)`: run every rule on its key's value in
shape order, returning the parsed entries and the list of issues
(`(path, message)` pairs). -/
def validateGroup (rules : List (String × Rule)) (vals : String → Option String) :
    List (String × Value) × List (String × String) :=
  rules.foldr
    (fun kr acc =>
      match kr.2 (toValue (vals kr.1)) with
      | Except.ok v => ((kr.1, v) :: acc.1, acc.2)
      | Except.error m => (acc.1, (kr.1, m) :: acc.2))
    ([], [])

/-- `processEnvConfig`: client-prefix check first, then empty-string
normalization, then server-group validation, then client-group
validation; each group's failure aggregates all its issues. -/
def processEnvConfig (env : EnvSchema) : Except String EnvResult :=
  match env.client.find? (fun p => !strStarts env.cliPfx p.1) with
  | some p => Except.error (cliPfxErrMsg p.1 env.cliPfx)
  | none =>
    let esu := env.emptyStringAsUndefined.getD false
    let pre := processedRuntimeEnv esu env.runtimeEnv
    let sv := validateGroup env.server (envLookup pre)
    match sv.2 with
    | [] =>
      let cv := validateGroup env.client (envLookup pre)
      match cv.2 with
      | [] => Except.ok ⟨sv.1, cv.1⟩
      | errs =>
        Except.error ("Client environment validation failed:\n" ++ errLines errs)
    | errs =>
      Except.error ("Server environment validation failed:\n" ++ errLines errs)

/-- Resolve a field's value source: a static value directly, or invoke the
resolver with `{ stableId, env }` (a throw propagates as-is). -/
def resolveFieldValue : FieldValue → String → EnvMap → Except String Value
  | FieldValue.static v, _, _ => Except.ok v
  | FieldValue.resolver g, sid, env => g sid env

/-- Process one field: resolve, then validate; only a validation failure
(a zod error) is wrapped with the field's stableId — a resolver throw
escapes the try block unwrapped. -/
def processField (pfx : String) (env : EnvMap) (k : String) (f : ConfigField) :
    Except String Value :=
  match resolveFieldValue f.value (pfx ++ "." ++ k) env with
  | Except.error e => Except.error e
  | Except.ok rv =>
    match f.validation rv with
    | Except.ok v => Except.ok v
    | Except.error m =>
      Except.error ("Validation failed for " ++ pfx ++ "." ++ k ++ ": " ++ m)

/-- `processConfigObject`: fields in declaration order; the first failure
aborts (the exception propagates, no partial result escapes). -/
def processConfigObject (obj : List (String × ConfigField)) (pfx : String)
    (env : EnvMap) : Except String (List (String × Value)) :=
  match obj with
  | [] => Except.ok []
  | (k, f) :: rest =>
    match processField pfx env k f with
    | Except.error e => Except.error e
    | Except.ok v =>
      match processConfigObject rest pfx env with
      | Except.error e => Except.error e
      | Except.ok vs => Except.ok ((k, v) :: vs)

/-- The env step of `defineConfig`: `envResult = {}` when no env block,
else `processEnvConfig`. -/
def envOutcome (c : Config) : Except String EnvResult :=
  match c.env with
  | none => Except.ok ⟨[], []⟩
  | some e => processEnvConfig e

/-- The core `defineConfig`.  `marker` is the value of
`process.env.CONFIG_AS_CODE_BUILD_MODE`: when it is `"true"` the raw
config is returned unvalidated.  Otherwise: validate the environment,
resolve-and-validate the server then client fields (each against its
validated environment partition), then spread the validated environment
over the field results (`{...serverResult, ...envResult.server}`). -/
def defineConfig (marker : Option String) (c : Config) : Except String DefineResult :=
  if marker = some "true" then
    Except.ok (DefineResult.raw c)
  else
    match envOutcome c with
    | Except.error e => Except.error e
    | Except.ok envR =>
      match processConfigObject c.server "server" envR.server with
      | Except.error e => Except.error e
      | Except.ok serverFields =>
        match processConfigObject c.client "client" envR.client with
        | Except.error e => Except.error e
        | Except.ok clientFields =>
          Except.ok (DefineResult.resolved
            (mergeRecords serverFields envR.server)
            (mergeRecords clientFields envR.client))

/-- One step of `mergePluginConfigs`' reduce: componentwise spread, the
right (later) fragment last. -/
def mergeTwo (m c : PluginConfig) : PluginConfig :=
  ⟨mergeRecords m.server c.server, mergeRecords m.client c.client,
   mergeRecords m.envServer c.envServer, mergeRecords m.envClient c.envClient⟩

/-- `mergePluginConfigs`: left-to-right reduce over registration order,
starting from the empty fragment. -/
def mergePluginConfigs (cs : List PluginConfig) : PluginConfig :=
  cs.foldl mergeTwo ⟨[], [], [], []⟩

/-- The builder's plugin-build loop: each `build()` awaited in
registration order, the first throw aborting the pass. -/
def seqExcept : List (Except String PluginConfig) → Except String (List PluginConfig)
  | [] => Except.ok []
  | x :: xs =>
    match x with
    | Except.error e => Except.error e
    | Except.ok p =>
      match seqExcept xs with
      | Except.error e => Except.error e
      | Except.ok ps => Except.ok (p :: ps)

/-- The `fullConfig` object assembled by `ConfigBuilder.defineConfig`:
precondition check, plugin builds, fragment merge, then the spreads
`{...this.serverEnvSchemas, ...merged.env.server}` (and client), and
`{...config.server, ...merged.server}` (and client). -/
def ConfigBuilder.fullConfig (b : ConfigBuilder) (cfg : RootConfig) :
    Except String Config :=
  match b.envConfig with
  | none => Except.error "buildEnv() must be called before defineConfig()"
  | some ec =>
    match seqExcept b.plugins with
    | Except.error e => Except.error e
    | Except.ok pcs =>
      let merged := mergePluginConfigs pcs
      Except.ok
        ⟨mergeRecords cfg.server merged.server,
         mergeRecords cfg.client merged.client,
         some ⟨mergeRecords b.serverEnvSchemas merged.envServer,
               mergeRecords b.clientEnvSchemas merged.envClient,
               ec.cliPfx, ec.runtimeEnv, ec.emptyStringAsUndefined⟩⟩

/-- `ConfigBuilder.defineConfig`: assemble the full config (precondition
check first, then plugin builds and merging), then hand it to the core
`defineConfig`. -/
def ConfigBuilder.defineConfig (b : ConfigBuilder) (cfg : RootConfig)
    (marker : Option String) : Except String DefineResult :=
  match b.fullConfig cfg with
  | Except.error e => Except.error e
  | Except.ok fc => CfgKit.defineConfig marker fc

/-- The initial exported `configBuilder` instance. -/
def ConfigBuilder.empty : ConfigBuilder := ⟨[], [], none, []⟩

/-- `addPlugins`: replaces the plugin list, carries everything else over
(in particular `envConfig` stays whatever it was). -/
def ConfigBuilder.addPlugins (b : ConfigBuilder)
    (ps : List (Except String PluginConfig)) : ConfigBuilder :=
  ⟨b.serverEnvSchemas, b.clientEnvSchemas, b.envConfig, ps⟩

/-- `buildEnv`: installs the env schemas and env configuration, keeping
the plugin list. -/
def ConfigBuilder.buildEnv (b : ConfigBuilder) (s c : List (String × Rule))
    (ec : EnvCfg) : ConfigBuilder :=
  ⟨s, c, some ec, b.plugins⟩

/-- Specification of last-registration-wins lookup over a plugin list:
scan left-to-right, a later fragment's hit replacing an earlier one. -/
def lastWins {α : Type} (f : PluginConfig → List (String × α))
    (cs : List PluginConfig) (k : String) : Option α :=
  cs.foldl (fun acc c => firstSome (lookupRecord (f c) k) acc) none

/-- Remove every entry with the given key (used to state "this variable is
entirely absent from `runtimeEnv`"). -/
def eraseKey {α : Type} (l : List (String × α)) (k : String) : List (String × α) :=
  l.filter (fun p => p.1 ≠ k)

/-! ### Shared lookup lemmas about the object-spread model -/

theorem lookupRecord_append {α : Type} (x y : List (String × α)) (k : String) :
    lookupRecord (x ++ y) k = firstSome (lookupRecord x k) (lookupRecord y k) := by
  induction x with
  | nil => simp [lookupRecord, firstSome]
  | cons p rest ih =>
    obtain ⟨k₀, v₀⟩ := p
    by_cases h : k₀ = k
    · simp [lookupRecord, h, firstSome]
    · simp [lookupRecord, h, ih]

theorem lookupRecord_mapOverride {α : Type} (a b : List (String × α)) (k : String) :
    lookupRecord (a.map (fun p => (p.1, (lookupRecord b p.1).getD p.2))) k =
      (lookupRecord a k).map (fun v => (lookupRecord b k).getD v) := by
  induction a with
  | nil => simp [lookupRecord]
  | cons p rest ih =>
    obtain ⟨k₀, v₀⟩ := p
    by_cases h : k₀ = k
    · subst h; simp [lookupRecord]
    · simp [lookupRecord, h, ih]

theorem lookupRecord_filterNotIn {α : Type} (a b : List (String × α)) (k : String) :
    lookupRecord (b.filter (fun p => (lookupRecord a p.1).isNone)) k =
      (if (lookupRecord a k).isNone then lookupRecord b k else none) := by
  induction b with
  | nil => simp [lookupRecord]
  | cons p rest ih =>
    obtain ⟨k₀, v₀⟩ := p
    by_cases h : k₀ = k
    · subst h
      by_cases ha : (lookupRecord a k₀).isNone
      · simp [List.filter, ha, lookupRecord]
      · simp [List.filter, ha, lookupRecord, ih]
    · by_cases hb : (lookupRecord a k₀).isNone
      · simp [List.filter, hb, lookupRecord, h, ih]
      · simp [List.filter, hb, lookupRecord, h, ih]

/-- Lookup over a spread `{...a, ...b}`: `b`'s entry when it has the key,
else `a`'s. -/
theorem lookupRecord_mergeRecords {α : Type} (a b : List (String × α)) (k : String) :
    lookupRecord (mergeRecords a b) k =
      firstSome (lookupRecord b k) (lookupRecord a k) := by
  unfold mergeRecords
  rw [lookupRecord_append, lookupRecord_mapOverride, lookupRecord_filterNotIn]
  cases ha : lookupRecord a k with
  | none => cases hb : lookupRecord b k <;> simp [firstSome]
  | some v => cases hb : lookupRecord b k <;> simp [firstSome]

theorem foldl_mergeTwo_lookup (cs : List PluginConfig) (acc : PluginConfig) (k : String) :
    lookupRecord (cs.foldl mergeTwo acc).server k =
        cs.foldl (fun o c => firstSome (lookupRecord c.server k) o)
          (lookupRecord acc.server k) ∧
      lookupRecord (cs.foldl mergeTwo acc).client k =
        cs.foldl (fun o c => firstSome (lookupRecord c.client k) o)
          (lookupRecord acc.client k) ∧
      lookupRecord (cs.foldl mergeTwo acc).envServer k =
        cs.foldl (fun o c => firstSome (lookupRecord c.envServer k) o)
          (lookupRecord acc.envServer k) ∧
      lookupRecord (cs.foldl mergeTwo acc).envClient k =
        cs.foldl (fun o c => firstSome (lookupRecord c.envClient k) o)
          (lookupRecord acc.envClient k) := by
  induction cs generalizing acc with
  | nil => exact ⟨rfl, rfl, rfl, rfl⟩
  | cons c rest ih =>
    have h := ih (mergeTwo acc c)
    simpa [mergeTwo, List.foldl_cons, lookupRecord_mergeRecords] using h

/-! ### Concrete rules and fixtures (models of concrete zod rules) -/

/-- `z.string()`: accepts strings, `Required` otherwise. -/
def stringRule : Rule := fun v =>
  match v with
  | Value.str s => Except.ok (Value.str s)
  | _ => Except.error "Required"

/-- `z.number()`: accepts numbers, `Required` otherwise. -/
def numberRule : Rule := fun v =>
  match v with
  | Value.num n => Except.ok (Value.num n)
  | _ => Except.error "Required"

/-- `z.string().min(1)`: non-empty strings only. -/
def nonEmptyStringRule : Rule := fun v =>
  match v with
  | Value.str s => if s = "" then Except.error "Too small" else Except.ok (Value.str s)
  | _ => Except.error "Required"

/-- A plugin-contributed field named `x` with static value `"plugin"`. -/
def c1plugField : ConfigField := ⟨stringRule, FieldValue.static (Value.str "plugin")⟩

/-- A root-declared field named `x` with static value `"root"`. -/
def c1rootField : ConfigField := ⟨stringRule, FieldValue.static (Value.str "root")⟩

/-- A plugin fragment contributing only the field `x`. -/
def c1plugin : PluginConfig := ⟨[("x", c1plugField)], [], [], []⟩

/-- A builder with an env schema in place and the one plugin registered. -/
def c1builder : ConfigBuilder := ⟨[], [], some ⟨"PUBLIC_", [], none⟩, [Except.ok c1plugin]⟩

/-- The root field declarations: `x` again, with value `"root"`. -/
def c1root : RootConfig := ⟨[("x", c1rootField)], []⟩

/-- The env block `ConfigBuilder.fullConfig` assembles for `c1builder`. -/
def c1es : EnvSchema := ⟨[], [], "PUBLIC_", [], none⟩

/-- The full config object `c1builder` hands to the core `defineConfig`:
the plugin's `x` has displaced the root's. -/
def c1full : Config := ⟨[("x", c1plugField)], [], some c1es⟩

/-- A config with one static, valid server field and no env block. -/
def c2cfg : Config := ⟨[("x", ⟨numberRule, FieldValue.static (Value.num 5)⟩)], [], none⟩

/-- A server field whose resolver throws `"boom"`. -/
def c3cfg : Config :=
  ⟨[("x", ⟨stringRule, FieldValue.resolver (fun _ _ => Except.error "boom")⟩)], [], none⟩

/-- A static field whose value (a number) fails its string rule. -/
def c3valField : ConfigField := ⟨stringRule, FieldValue.static (Value.num 1)⟩

/-- Two server environment rules that both fail against an empty runtime
environment. -/
def c5env : EnvSchema := ⟨[("A", numberRule), ("B", numberRule)], [], "PUBLIC_", [], none⟩

/-- A server field `computed` whose resolver returns its stableId, under a
non-empty-string rule. -/
def c8field : ConfigField :=
  ⟨nonEmptyStringRule, FieldValue.resolver (fun sid _ => Except.ok (Value.str sid))⟩

/-- The end-to-end scenario-3 config. -/
def c8cfg : Config := ⟨[("computed", c8field)], [], none⟩

/-- Env schema declaring rule `n`, with `runtimeEnv.n = "env"`. -/
def c10env : EnvSchema := ⟨[("n", stringRule)], [], "PUBLIC_", [("n", some "env")], none⟩

/-- Config declaring both a server field `n` (value `"field"`) and the
environment rule `n` (validating to `"env"`). -/
def c10cfg : Config :=
  ⟨[("n", ⟨stringRule, FieldValue.static (Value.str "field")⟩)], [], some c10env⟩

/-! ### Claim C1 -/

/-- C1 counterexample: the root declares field `x = "root"`, a plugin also
contributes `x = "plugin"`; the claim says the Resolved Config's `x` is the
root's value, but the builder's spread `{...config.server, ...merged.server}`
puts plugin fragments last, so the resolved `x` is `"plugin"`. -/
theorem c1_counterexample :
    c1builder.defineConfig c1root none =
        Except.ok (DefineResult.resolved [("x", Value.str "plugin")] []) ∧
      Value.str "plugin" ≠ Value.str "root" :=
  ⟨rfl, by decide⟩

/-- C1 amended: plugin-contributed fields win over same-named root fields,
and plugin-contributed environment rules win over same-named root
environment rules, in the full config assembled by
`ConfigBuilder.defineConfig`. -/
theorem c1_amended (b : ConfigBuilder) (cfg : RootConfig) (fc : Config)
    (pcs : List PluginConfig) (k : String) (f : ConfigField) (es : EnvSchema)
    (r : Rule) :
    b.fullConfig cfg = Except.ok fc →
    seqExcept b.plugins = Except.ok pcs →
    (lookupRecord (mergePluginConfigs pcs).server k = some f →
        lookupRecord fc.server k = some f) ∧
      (fc.env = some es →
        lookupRecord (mergePluginConfigs pcs).envServer k = some r →
        lookupRecord es.server k = some r) := by
  intro hfc hps
  unfold ConfigBuilder.fullConfig at hfc
  cases hec : b.envConfig with
  | none => rw [hec] at hfc; exact absurd hfc (by simp)
  | some ec =>
    rw [hec, hps] at hfc
    injection hfc with hfc
    subst hfc
    constructor
    · intro h
      simp [lookupRecord_mergeRecords, h, firstSome]
    · intro hes h
      injection hes with hes
      subst hes
      simp [lookupRecord_mergeRecords, h, firstSome]

/-- C1 amended, witnessed on the concrete collision fixture. -/
theorem c1_amended_witness :
    lookupRecord c1full.server "x" = some c1plugField :=
  (c1_amended c1builder c1root c1full [c1plugin] "x" c1plugField c1es
      stringRule rfl rfl).1 rfl

/-! ### Claim C2 -/

/-- C2 counterexample: the core `defineConfig` does read the build-mode
marker: with the marker set to `"true"` it returns the raw declarations,
while without it it returns the resolved config, so the two runs differ. -/
theorem c2_counterexample :
    defineConfig (some "true") c2cfg ≠ defineConfig none c2cfg := by
  intro h
  have h1 : defineConfig (some "true") c2cfg = Except.ok (DefineResult.raw c2cfg) := rfl
  have h2 : defineConfig none c2cfg =
      Except.ok (DefineResult.resolved [("x", Value.num 5)] []) := rfl
  rw [h1, h2] at h
  injection h with h
  exact DefineResult.noConfusion h

/-- C2 amended: the core `defineConfig` itself reads the marker; its result
depends only on whether the marker equals `"true"` (two runs agreeing on
that test produce identical results), and with the marker `"true"` it
returns the raw declarations unvalidated. -/
theorem c2_amended :
    (∀ (c : Config) (m m' : Option String),
        (m = some "true" ↔ m' = some "true") →
        defineConfig m c = defineConfig m' c) ∧
      ∀ c : Config, defineConfig (some "true") c = Except.ok (DefineResult.raw c) := by
  constructor
  · intro c m m' hiff
    by_cases h : m = some "true"
    · rw [h, hiff.mp h]
    · have h' : ¬m' = some "true" := fun hh => h (hiff.mpr hh)
      unfold defineConfig
      rw [if_neg h, if_neg h']
  · intro c
    rfl

/-- C2 amended, witnessed: an unset marker and a marker set to `"false"`
give identical results on the concrete config. -/
theorem c2_amended_witness :
    defineConfig none c2cfg = defineConfig (some "false") c2cfg :=
  c2_amended.1 c2cfg none (some "false") (by decide)

/-! ### Claim C3 -/

/-- C3 counterexample: a server field `x` whose resolver throws `"boom"`
does abort the whole pass, but the surfaced error is the resolver's own
message and does not identify the field's stableId `server.x` — only
validation failures are wrapped with the stableId. -/
theorem c3_counterexample :
    defineConfig none c3cfg = Except.error "boom" ∧
      strHasSub "server.x" "boom" = false :=
  ⟨rfl, rfl⟩

/-- C3 amended: any failing field aborts the whole pass (no partial
result); a failing validation is surfaced as
`Validation failed for <stableId>: <message>`; a throwing resolver aborts
the pass with the resolver's own error, unwrapped; and a failing server
field set makes the whole `defineConfig` pass fail with that error. -/
theorem c3_amended :
    (∀ (obj : List (String × ConfigField)) (pfx : String) (env : EnvMap)
        (k : String) (f : ConfigField) (e : String),
        (k, f) ∈ obj → processField pfx env k f = Except.error e →
        ∃ e', processConfigObject obj pfx env = Except.error e') ∧
      (∀ (pfx : String) (env : EnvMap) (k : String) (f : ConfigField)
          (rv : Value) (m : String),
        resolveFieldValue f.value (pfx ++ "." ++ k) env = Except.ok rv →
        f.validation rv = Except.error m →
        processField pfx env k f =
          Except.error ("Validation failed for " ++ pfx ++ "." ++ k ++ ": " ++ m)) ∧
      (∀ (pfx : String) (env : EnvMap) (k : String) (f : ConfigField) (e : String),
        resolveFieldValue f.value (pfx ++ "." ++ k) env = Except.error e →
        processField pfx env k f = Except.error e) ∧
      ∀ (m : Option String) (c : Config) (envR : EnvResult) (e : String),
        m ≠ some "true" → envOutcome c = Except.ok envR →
        processConfigObject c.server "server" envR.server = Except.error e →
        defineConfig m c = Except.error e := by
  refine ⟨?_, ?_, ?_, ?_⟩
  · intro obj pfx env k f e hmem hf
    induction obj with
    | nil => cases hmem
    | cons p rest ih =>
      obtain ⟨k₀, f₀⟩ := p
      rcases List.mem_cons.mp hmem with heq | htail
      · injection heq with hk hf₀
        subst hk
        subst hf₀
        exact ⟨e, by simp only [processConfigObject, hf]⟩
      · cases hp : processField pfx env k₀ f₀ with
        | error e₀ => exact ⟨e₀, by unfold processConfigObject; rw [hp]⟩
        | ok v₀ =>
          obtain ⟨e', he'⟩ := ih htail
          refine ⟨e', ?_⟩
          unfold processConfigObject
          rw [hp, he']
  · intro pfx env k f rv m hrv hval
    unfold processField
    rw [hrv]
    simp only [hval]
  · intro pfx env k f e hrv
    unfold processField
    rw [hrv]
  · intro m c envR e hm he hs
    unfold defineConfig
    rw [if_neg hm]
    simp only [he, hs]

/-- C3 amended, witnessed: a static number under a string rule is surfaced
with its stableId, and the throwing-resolver config fails the whole pass
with the resolver's error. -/
theorem c3_amended_witness :
    processField "server" [] "x" c3valField =
        Except.error "Validation failed for server.x: Required" ∧
      defineConfig none c3cfg = Except.error "boom" :=
  ⟨c3_amended.2.1 "server" [] "x" c3valField (Value.num 1) "Required" rfl rfl,
   c3_amended.2.2.2 none c3cfg ⟨[], []⟩ "boom" (by simp) rfl rfl⟩

/-! ### Claim C4 -/

/-- C4: merging plugin fragments is a left-to-right fold over registration
order, and on every component (fields and environment rules, server and
client) the merged lookup of any key is the last-registered contribution
of that key — later plugins replace earlier ones, and the merge is a total
function (it never raises on a collision). -/
theorem c4 (cs : List PluginConfig) (k : String) :
    lookupRecord (mergePluginConfigs cs).server k =
        lastWins (fun c => c.server) cs k ∧
      lookupRecord (mergePluginConfigs cs).client k =
        lastWins (fun c => c.client) cs k ∧
      lookupRecord (mergePluginConfigs cs).envServer k =
        lastWins (fun c => c.envServer) cs k ∧
      lookupRecord (mergePluginConfigs cs).envClient k =
        lastWins (fun c => c.envClient) cs k := by
  have h := foldl_mergeTwo_lookup cs ⟨[], [], [], []⟩ k
  simpa [mergePluginConfigs, lastWins, lookupRecord] using h

/-! ### Claim C5 -/

/-- C5: when a group's environment validation fails, `processEnvConfig`
surfaces one composite error aggregating every issue of that group as
`"<path>: <message>"` lines, newline-joined, tagged as a server- or
client-environment failure respectively (the server group is checked
first). -/
theorem c5 (env : EnvSchema) (errs : List (String × String)) :
    env.client.find? (fun p => !strStarts env.cliPfx p.1) = none →
    errs ≠ [] →
    ((validateGroup env.server (envLookup (processedRuntimeEnv
          (env.emptyStringAsUndefined.getD false) env.runtimeEnv))).2 = errs →
      processEnvConfig env =
        Except.error ("Server environment validation failed:\n" ++ errLines errs)) ∧
      ((validateGroup env.server (envLookup (processedRuntimeEnv
            (env.emptyStringAsUndefined.getD false) env.runtimeEnv))).2 = [] →
        (validateGroup env.client (envLookup (processedRuntimeEnv
            (env.emptyStringAsUndefined.getD false) env.runtimeEnv))).2 = errs →
        processEnvConfig env =
          Except.error ("Client environment validation failed:\n" ++ errLines errs)) := by
  intro hpfx hne
  constructor
  · intro hs
    unfold processEnvConfig
    rw [hpfx]
    simp only [hs]
  · intro hs hc
    unfold processEnvConfig
    rw [hpfx]
    simp only [hs, hc]

/-- C5, witnessed: two simultaneously invalid server variables `A` and `B`
yield one composite server-tagged error whose message mentions both. -/
theorem c5_witness :
    processEnvConfig c5env =
        Except.error "Server environment validation failed:\nA: Required\nB: Required" ∧
      strHasSub "A: Required"
        "Server environment validation failed:\nA: Required\nB: Required" = true ∧
      strHasSub "B: Required"
        "Server environment validation failed:\nA: Required\nB: Required" = true :=
  ⟨(c5 c5env [("A", "Required"), ("B", "Required")] rfl (by decide)).1 rfl,
   by decide, by decide⟩

/-! ### Claim C6 -/

theorem lookupRecord_processedRuntimeEnv (esu : Bool)
    (l : List (String × Option String)) (k : String) :
    lookupRecord (processedRuntimeEnv esu l) k =
      (lookupRecord l k).map (processEnvValue esu) := by
  induction l with
  | nil => simp [processedRuntimeEnv, lookupRecord]
  | cons p rest ih =>
    obtain ⟨k₀, v₀⟩ := p
    by_cases h : k₀ = k
    · simp [processedRuntimeEnv, lookupRecord, h]
    · simp [processedRuntimeEnv, lookupRecord, h] at ih ⊢
      exact ih

theorem lookupRecord_eraseKey {α : Type} (l : List (String × α)) (n k : String) :
    lookupRecord (eraseKey l n) k =
      (if k = n then none else lookupRecord l k) := by
  induction l with
  | nil => simp [eraseKey, lookupRecord]
  | cons p rest ih =>
    obtain ⟨k₀, v₀⟩ := p
    by_cases hd : k₀ = n
    · subst hd
      have he : eraseKey ((k₀, v₀) :: rest) k₀ = eraseKey rest k₀ := by
        simp [eraseKey]
      rw [he, ih]
      by_cases hk : k = k₀
      · simp [hk]
      · have h2 : ¬k₀ = k := fun h => hk h.symm
        simp [lookupRecord, hk, h2]
    · have he : eraseKey ((k₀, v₀) :: rest) n = (k₀, v₀) :: eraseKey rest n := by
        simp [eraseKey, hd]
      rw [he]
      by_cases hk : k₀ = k
      · subst hk
        simp [lookupRecord, hd]
      · simp [lookupRecord, hk, ih]

/-- C6: with `emptyStringAsUndefined` on, a runtime variable set to `""`
behaves exactly like that variable being entirely absent: environment
validation produces the same outcome (same validated maps on success,
same composite failure on error). -/
theorem c6 (s c : List (String × Rule)) (p : String)
    (re : List (String × Option String)) (n : String) :
    processEnvConfig ⟨s, c, p, (n, some "") :: re, some true⟩ =
      processEnvConfig ⟨s, c, p, eraseKey re n, some true⟩ := by
  have key : envLookup (processedRuntimeEnv true ((n, some "") :: re)) =
      envLookup (processedRuntimeEnv true (eraseKey re n)) := by
    funext k
    unfold envLookup
    rw [lookupRecord_processedRuntimeEnv, lookupRecord_processedRuntimeEnv,
      lookupRecord_eraseKey]
    by_cases h : k = n
    · subst h
      simp [lookupRecord, processEnvValue]
    · have h' : ¬n = k := fun hh => h hh.symm
      simp [lookupRecord, h, h']
  show processEnvConfig _ = processEnvConfig _
  unfold processEnvConfig
  simp only [Option.getD]
  rw [key]

/-! ### Claim C7 -/

/-- C7: if any client environment rule's name lacks the `clientPrefix`,
environment validation fails with a prefix error, and the outcome is the
same for every `runtimeEnv` and every `emptyStringAsUndefined` setting —
nothing of the runtime environment is consulted. -/
theorem c7 (s c : List (String × Rule)) (p : String)
    (re re' : List (String × Option String)) (esu esu' : Option Bool)
    (n : String) (r : Rule) :
    (n, r) ∈ c → strStarts p n = false →
    processEnvConfig ⟨s, c, p, re, esu⟩ = processEnvConfig ⟨s, c, p, re', esu'⟩ ∧
      ∃ k, strStarts p k = false ∧
        processEnvConfig ⟨s, c, p, re, esu⟩ = Except.error (cliPfxErrMsg k p) := by
  intro hmem hpfx
  cases hf : c.find? (fun q => !strStarts p q.1) with
  | none =>
    exfalso
    have hall := List.find?_eq_none.mp hf (n, r) hmem
    simp [hpfx] at hall
  | some q =>
    have hq : (fun x : String × Rule => !strStarts p x.1) q = true :=
      @List.find?_some (String × Rule) (fun x => !strStarts p x.1) q c hf
    constructor
    · unfold processEnvConfig
      simp only [hf]
    · refine ⟨q.1, by simpa using hq, ?_⟩
      unfold processEnvConfig
      simp only [hf]

/-- C7, witnessed on a schema whose only client rule `X` lacks the
`PUBLIC_` prefix: two different runtime environments give the identical
outcome. -/
theorem c7_witness :
    processEnvConfig ⟨[], [("X", stringRule)], "PUBLIC_", [("X", some "v")], none⟩ =
      processEnvConfig ⟨[], [("X", stringRule)], "PUBLIC_", [], some true⟩ :=
  (c7 [] [("X", stringRule)] "PUBLIC_" [("X", some "v")] [] none (some true)
      "X" stringRule (List.mem_singleton.mpr rfl) rfl).1

/-! ### Claim C8 -/

/-- C8: the stableId handed to a resolver is exactly
`<section> ++ "." ++ <name>`, and the end-to-end scenario — a server field
`computed` whose resolver returns its stableId, under a non-empty-string
rule — resolves to `"server.computed"`. -/
theorem c8 :
    (∀ (pfx : String) (env : EnvMap) (k : String) (rule : Rule)
        (g : String → EnvMap → Except String Value),
      processField pfx env k ⟨rule, FieldValue.resolver g⟩ =
        match g (pfx ++ "." ++ k) env with
        | Except.error e => Except.error e
        | Except.ok rv =>
          match rule rv with
          | Except.ok v => Except.ok v
          | Except.error m =>
            Except.error ("Validation failed for " ++ pfx ++ "." ++ k ++ ": " ++ m)) ∧
      defineConfig none c8cfg =
        Except.ok (DefineResult.resolved [("computed", Value.str "server.computed")] []) :=
  ⟨fun _ _ _ _ _ => rfl, rfl⟩

/-! ### Claim C9 -/

/-- C9: on a builder whose environment step was never performed (no matter
which plugins were added), `defineConfig` fails at once with the
precondition error — for every root config, every marker value and every
plugin list (even plugins whose `build()` would throw, which shows no
plugin is built first), and the message is not a validation-failure
message. -/
theorem c9 (ps : List (Except String PluginConfig)) (cfg : RootConfig)
    (marker : Option String) :
    (ConfigBuilder.empty.addPlugins ps).defineConfig cfg marker =
        Except.error "buildEnv() must be called before defineConfig()" ∧
      strHasSub "alidation" "buildEnv() must be called before defineConfig()" = false :=
  ⟨rfl, rfl⟩

/-! ### Claim C10 -/

/-- C10: whenever resolution succeeds, the validated environment partition
is spread over the field-resolution results last, so for any name the
environment declares, the Resolved Config carries the validated
environment value — silently shadowing a same-named declared field — while
the fields (including any shadowed one) were still fully resolved and
validated (success of the pass requires `processConfigObject` to have
succeeded on both sections). -/
theorem c10 (m : Option String) (c : Config) (sRes cRes : List (String × Value))
    (e : EnvSchema) (envR : EnvResult) (n : String) (v : Value) :
    defineConfig m c = Except.ok (DefineResult.resolved sRes cRes) →
    c.env = some e → processEnvConfig e = Except.ok envR →
    (lookupRecord envR.server n = some v → lookupRecord sRes n = some v) ∧
      (lookupRecord envR.client n = some v → lookupRecord cRes n = some v) ∧
      (∃ fr, processConfigObject c.server "server" envR.server = Except.ok fr) ∧
      ∃ fr, processConfigObject c.client "client" envR.client = Except.ok fr := by
  intro hdc henv hpe
  unfold defineConfig at hdc
  by_cases hm : m = some "true"
  · rw [if_pos hm] at hdc
    injection hdc with h
    exact absurd h (by simp)
  · rw [if_neg hm] at hdc
    have he : envOutcome c = Except.ok envR := by
      unfold envOutcome
      rw [henv]
      exact hpe
    simp only [he] at hdc
    cases hs : processConfigObject c.server "server" envR.server with
    | error e1 => rw [hs] at hdc; exact absurd hdc (by simp)
    | ok sf =>
      cases hc : processConfigObject c.client "client" envR.client with
      | error e1 =>
        simp only [hs, hc] at hdc
        exact absurd hdc (by simp)
      | ok cf =>
        simp only [hs, hc] at hdc
        injection hdc with h
        injection h with h1 h2
        subst h1
        subst h2
        refine ⟨?_, ?_, ⟨sf, rfl⟩, ⟨cf, rfl⟩⟩
        · intro hl
          rw [lookupRecord_mergeRecords, hl]
          rfl
        · intro hl
          rw [lookupRecord_mergeRecords, hl]
          rfl

/-- C10, witnessed: with both a server field `n = "field"` and an
environment rule `n` validating to `"env"`, the resolved server map's `n`
is the environment's value. -/
theorem c10_witness :
    lookupRecord [("n", Value.str "env")] "n" = some (Value.str "env") :=
  (c10 none c10cfg [("n", Value.str "env")] [] c10env
      ⟨[("n", Value.str "env")], []⟩ "n" (Value.str "env") rfl rfl rfl).1 rfl

end CfgKit
